/-
  Spec2Proof.lean — a verification development for the candidate-portal chat
  client (static/js/chat.js of the Fogo-chatbot repository).

  The client is single-threaded and event-driven (browser event loop); we
  embed it as an explicit state machine.  The mutable fields of the `ChatApp`
  class that the session/connection lifecycle touches become fields of
  `AppState`; every callback of the source (the Clerk auth listener, the
  WebSocket onopen/onmessage/onclose/onerror handlers, the reconnect
  setTimeout callback, the candidate-data fetch continuation, UI handlers)
  becomes one case of the transition function `stepCore`.  Asynchronous
  suspension points (`await getSessionToken()` inside `connect()`) are split:
  `connectStart` is the synchronous prefix of `connect()` up to the await,
  and the `tokenOk`/`tokenNone` events resume it with the provider's answer.

  WebSocket instances are recorded in creation order in `AppState.socks`;
  `cur` is the `this.socket` reference (an index, `none` = null).  The
  payload of each outbound `socket.send` is accumulated per socket in
  `Sock.sent`, so "an envelope went out on the wire" is observable.
  `pendingTimers` records the delays of the reconnect timeouts scheduled by
  the onclose handler and not yet fired (the only setTimeout of the
  lifecycle besides the Clerk-load poll, which creates no state).
  DOM-only rendering (sidebar text, timeline markup, i18n strings) is out of
  scope, but the observable UI switches the claims mention (screen shown,
  auth-error banner, quick actions, message log, input field) are kept.
-/
import Mathlib

set_option maxHeartbeats 1000000

/-- One row of the fixed candidate-pipeline vocabulary
(chat.js lines 38-47, `APPLICATION_STAGES` entries). -/
structure Stage where
  key : String
  label : String
  labelEs : String
deriving DecidableEq

/-- chat.js lines 38-47: the fixed ordered 8-entry stage vocabulary. -/
def APPLICATION_STAGES : List Stage :=
  [ ⟨"Application Review", "Applied", "Aplicado"⟩,
    ⟨"Candidate Interview", "Interview", "Entrevista"⟩,
    ⟨"Candidate Language Assessment", "Assessment", "Evaluacion"⟩,
    ⟨"Candidate ID/Background Verification", "Verification", "Verificacion"⟩,
    ⟨"Contract & Payment Setup", "Contract", "Contrato"⟩,
    ⟨"Training Required", "Training", "Capacitacion"⟩,
    ⟨"Client Tool Orientation", "Orientation", "Orientacion"⟩,
    ⟨"Interpreter Ready for Production", "Ready", "Listo"⟩ ]

/-- JavaScript `Array.prototype.findIndex`: first index whose key matches,
or -1 when no element matches (linear scan). -/
def jsFindIndex (c : String) : List Stage → Int
  | [] => -1
  | stage :: rest =>
    if stage.key = c then 0
    else
      let r := jsFindIndex c rest
      if r < 0 then -1 else r + 1

/-- chat.js line 265: `currentStage ? APPLICATION_STAGES.findIndex(s => s.key
=== currentStage) : -1`.  A null argument and (by JS falsiness) the empty
string yield -1 directly. -/
def stageIndexOf (currentStage : Option String) : Int :=
  match currentStage with
  | none => -1
  | some c => if c = "" then -1 else jsFindIndex c APPLICATION_STAGES

/-- chat.js line 269: a timeline row at position `index` gets the
"completed" class iff `index < currentIndex`. -/
def rowCompleted (index : Nat) (currentIndex : Int) : Bool :=
  decide ((index : Int) < currentIndex)

/-- chat.js line 269: a timeline row at position `index` gets the
"active" class iff `index === currentIndex`. -/
def rowActive (index : Nat) (currentIndex : Int) : Bool :=
  decide ((index : Int) = currentIndex)

/-- The whitespace class stripped by JavaScript `String.prototype.trim`
(restricted to the ASCII whitespace characters). -/
def jsIsWhitespace (c : Char) : Bool :=
  c = ' ' || c = '\t' || c = '\n' || c = '\r' || c = '\x0b' || c = '\x0c'

/-- JavaScript `String.prototype.trim`: strip leading and trailing
whitespace (chat.js line 351 applies it to the input field value). -/
def jsTrim (s : String) : String :=
  String.mk (((s.data.dropWhile jsIsWhitespace).reverse.dropWhile jsIsWhitespace).reverse)

/-- Outbound wire envelopes (chat.js lines 319, 355, 202, 385). -/
inductive OutEnv
  | auth (token : String) (language : String)
  | message (content : String)
  | setLanguage (language : String)
  | newConversation
deriving DecidableEq

/-- Inbound wire envelopes after a successful JSON parse (chat.js lines
324-337 discriminate on `data.type`; any other type falls through). -/
inductive InEnv
  | authSuccess
  | authFailed (reason : String)
  | message (content : String)
  | typing (status : Bool)
  | other
deriving DecidableEq

/-- A raw inbound frame: either undecodable (JSON.parse throws) or a
structured envelope. -/
inductive InPayload
  | malformed
  | wellformed (e : InEnv)
deriving DecidableEq

/-- Lifecycle phase of one WebSocket instance.  `closingByClient` is the
state after the client called `close()` but before the close event fired. -/
inductive SockPhase
  | connecting
  | opened
  | closingByClient
  | closed
deriving DecidableEq

/-- One WebSocket instance: its phase, whether its error event fired, the
bearer token captured by the `connect()` closure that created it, and the
envelopes sent over it. -/
structure Sock where
  phase : SockPhase
  errored : Bool
  token : String
  sent : List OutEnv
deriving DecidableEq

/-- Placeholder used to totalize list indexing; never hit on valid events. -/
def defaultSock : Sock := ⟨SockPhase.closed, true, "", []⟩

/-- Which top-level screen is displayed (loginScreen vs portalScreen). -/
inductive Screen
  | signInScreen
  | portalScreen
deriving DecidableEq

/-- The session states named by the specification (§3).  The source keeps no
such field; it is derived from the flags, see `authStateOf`. -/
inductive AuthState
  | Unauthenticated
  | Connecting
  | Authenticating
  | Ready
  | Failed
deriving DecidableEq

/-- The mutable state of the `ChatApp` instance (chat.js lines 50-58 plus
the observable UI state and the scheduled-callback bookkeeping). -/
structure AppState where
  /-- All WebSocket instances created so far, in creation order. -/
  socks : List Sock
  /-- `this.socket`: index into `socks`, `none` for null. -/
  cur : Option Nat
  /-- `this.clerkUser` as presence (the core never inspects its fields). -/
  clerkUser : Bool
  /-- `this.authHandled` (line 58). -/
  authHandled : Bool
  /-- `this.isConnected` (line 55). -/
  isConnected : Bool
  /-- `this.isConnecting` (line 56). -/
  isConnecting : Bool
  /-- `connect()` is suspended at `await this.getSessionToken()` (line 309). -/
  pendingToken : Bool
  /-- `this.language` (line 54; localStorage default "en"). -/
  savedLanguage : String
  /-- Delays (ms) of the reconnect setTimeouts scheduled by onclose
  (line 344) that have not fired yet. -/
  pendingTimers : List Nat
  /-- In-flight `loadCandidateData` calls awaiting token/fetch. -/
  pendingFetches : Nat
  /-- Number of times `window.Clerk.signOut()` was invoked. -/
  signOutCalls : Nat
  /-- Screen currently displayed. -/
  screen : Screen
  /-- The auth-error banner (`showAuthError`/`hideAuthError`). -/
  authErrorShown : Bool
  /-- Ghost flag: an `auth_success` envelope was received on the current
  connection.  Read by no transition, only by `authStateOf`. -/
  authSuccessSeen : Bool
  /-- quickActions container visibility. -/
  quickActionsVisible : Bool
  /-- messageInput/sendButton enabled (`setInputEnabled`). -/
  inputEnabled : Bool
  /-- The UI message log: (content, role) pairs in order. -/
  messageLog : List (String × String)
  /-- `this.messageInput.value`. -/
  inputValue : String
  /-- Typing indicator active. -/
  typingActive : Bool
deriving DecidableEq

/-- The spec's `authState` projection of the implementation flags:
`Connecting` while `connect()` is in progress, `Authenticating` once the
socket is open but the handshake unresolved, `Ready` after `auth_success`. -/
def authStateOf (s : AppState) : AuthState :=
  if s.isConnecting then AuthState.Connecting
  else if s.isConnected then
    (if s.authSuccessSeen then AuthState.Ready else AuthState.Authenticating)
  else AuthState.Unauthenticated

/-- chat.js lines 126-129 (`showSignIn`, observable part): display the login
screen (and `hideAuthError`, line 129). -/
def showSignInS (s : AppState) : AppState :=
  { s with screen := Screen.signInScreen, authErrorShown := false }

/-- chat.js lines 151-164 (`showAuthError`, observable part). -/
def showAuthErrorS (s : AppState) : AppState :=
  { s with authErrorShown := true }

/-- chat.js lines 305-310, the synchronous prefix of `connect()`: the
reentrancy guard, setting `isConnecting`, and suspending at the token await
(resumed by the `tokenOk`/`tokenNone` events). -/
def connectStart (s : AppState) : AppState :=
  if s.isConnecting || s.isConnected then s
  else { s with isConnecting := true, pendingToken := true }

/-- chat.js lines 171-185 (`onUserSignedIn`, observable part): hide the auth
error, show the portal, `connect()` unless already connected/connecting,
and start `loadCandidateData()`. -/
def onUserSignedIn (s : AppState) : AppState :=
  let s1 := { s with authErrorShown := false, screen := Screen.portalScreen }
  let s2 := if !s1.isConnected && !s1.isConnecting then connectStart s1 else s1
  { s2 with pendingFetches := s2.pendingFetches + 1 }

/-- WebSocket `close()`: a not-yet-closed socket starts closing (its close
event will still fire); a closed one is unaffected. -/
def closeSock (sk : Sock) : Sock :=
  if sk.phase = SockPhase.closed then sk
  else { sk with phase := SockPhase.closingByClient }

/-- chat.js lines 187-194 (`onUserSignedOut`): clear the user, reset
`authHandled` and both connection flags, close and null the socket, show
the sign-in screen. -/
def onUserSignedOut (s : AppState) : AppState :=
  let s1 := { s with clerkUser := false, authHandled := false,
                     isConnected := false, isConnecting := false }
  let s2 :=
    match s1.cur with
    | none => s1
    | some i =>
        { s1 with socks := s1.socks.set i (closeSock ((s1.socks[i]?).getD defaultSock)),
                  cur := none }
  showSignInS s2

/-- Append an envelope to the record of what was sent over a socket. -/
def appendSent (sk : Sock) (env : OutEnv) : Sock :=
  { sk with sent := sk.sent ++ [env] }

/-- `this.socket.send(...)`: the envelope goes out on the socket currently
referenced by `this.socket` (a no-op model of the null case, which the
valid traces never reach with a send). -/
def sendOnCur (s : AppState) (env : OutEnv) : AppState :=
  match s.cur with
  | none => s
  | some j =>
      { s with socks := s.socks.set j (appendSent ((s.socks[j]?).getD defaultSock) env) }

/-- chat.js lines 350-357 (`sendMessage`): take the explicit content or the
trimmed input value (JS `content || trimmed`, so an empty explicit content
also falls back); return silently unless nonempty and `isConnected`;
otherwise hide quick actions, log the user message, send the envelope and
clear the input. -/
def sendMessageS (s : AppState) (content : Option String) : AppState :=
  let message :=
    match content with
    | some c => if c = "" then jsTrim s.inputValue else c
    | none => jsTrim s.inputValue
  if message = "" || !s.isConnected then s
  else
    let s1 := { s with quickActionsVisible := false,
                       messageLog := s.messageLog ++ [(message, "user")] }
    let s2 := sendOnCur s1 (OutEnv.message message)
    { s2 with inputValue := "" }

/-- chat.js lines 322-338, the `socket.onmessage` handler body.  `none`
models the handler terminating abnormally: `JSON.parse(event.data)` (line
323) is the first statement and is not wrapped in try/catch, so an
undecodable payload throws before any state change. -/
def onMessage (s : AppState) (p : InPayload) : Option AppState :=
  match p with
  | InPayload.malformed => none
  | InPayload.wellformed e =>
      some (match e with
        | InEnv.authSuccess =>
            { s with quickActionsVisible := true, authSuccessSeen := true }
        | InEnv.authFailed r =>
            if r = "email_not_registered" then
              showAuthErrorS (showSignInS { s with signOutCalls := s.signOutCalls + 1 })
            else s
        | InEnv.message c =>
            { s with typingActive := false,
                     messageLog := s.messageLog ++ [(c, "assistant")] }
        | InEnv.typing st => if st then { s with typingActive := true } else s
        | InEnv.other => s)

/-- The discrete external events that drive the client. -/
inductive Ev
  /-- The Clerk listener fires with `resources.user` present (lines 106-115). -/
  | listenerUser
  /-- The Clerk listener fires with no user (sign-out propagated). -/
  | listenerNoUser
  /-- `getSessionToken()` inside `connect()` resolves with a token. -/
  | tokenOk (tok : String)
  /-- `getSessionToken()` inside `connect()` resolves null. -/
  | tokenNone
  /-- `socket.onopen` of socket `i` (lines 315-320). -/
  | sockOpen (i : Nat)
  /-- `socket.onmessage` of socket `i` (lines 322-338). -/
  | sockMsg (i : Nat) (p : InPayload)
  /-- `socket.onclose` of socket `i` (lines 340-345). -/
  | sockClose (i : Nat)
  /-- `socket.onerror` of socket `i` (line 347). -/
  | sockError (i : Nat)
  /-- A pending reconnect setTimeout callback fires (line 344). -/
  | timerFire
  /-- `loadCandidateData` resumes with `response.ok` (lines 243-246). -/
  | fetchOk
  /-- `loadCandidateData` resumes with status 403 (lines 247-251). -/
  | fetch403
  /-- `loadCandidateData` resumes with another status or a thrown error. -/
  | fetchOther
  /-- `loadCandidateData` got no session token and returned (line 241). -/
  | fetchTokenNone
  /-- The chat form is submitted (`sendMessage()`, content null) or a quick
  action fires (`sendMessage(msg)`). -/
  | uiSend (content : Option String)
  /-- The user edits the input field. -/
  | uiSetInput (v : String)
  /-- A language button is clicked (`setLanguage`, lines 196-204). -/
  | uiSetLanguage (l : String)
  /-- The New-conversation button (`newConversation`, lines 381-387). -/
  | uiNewConversation
deriving DecidableEq

/-- Which events can actually be delivered in a state: handlers only fire on
sockets in the right phase, a socket closes at most once, an errored socket
never opens, awaits resume only while suspended, timers fire only while
pending. -/
def validEv (s : AppState) : Ev → Bool
  | Ev.listenerUser => true
  | Ev.listenerNoUser => true
  | Ev.tokenOk _ => s.pendingToken
  | Ev.tokenNone => s.pendingToken
  | Ev.sockOpen i =>
      match s.socks[i]? with
      | some sk => decide (sk.phase = SockPhase.connecting) && !sk.errored
      | none => false
  | Ev.sockMsg i _ =>
      match s.socks[i]? with
      | some sk => decide (sk.phase = SockPhase.opened) && !sk.errored
      | none => false
  | Ev.sockClose i =>
      match s.socks[i]? with
      | some sk => decide (sk.phase ≠ SockPhase.closed)
      | none => false
  | Ev.sockError i =>
      match s.socks[i]? with
      | some sk => decide (sk.phase ≠ SockPhase.closed) && !sk.errored
      | none => false
  | Ev.timerFire => !s.pendingTimers.isEmpty
  | Ev.fetchOk => decide (0 < s.pendingFetches)
  | Ev.fetch403 => decide (0 < s.pendingFetches)
  | Ev.fetchOther => decide (0 < s.pendingFetches)
  | Ev.fetchTokenNone => decide (0 < s.pendingFetches)
  | Ev.uiSend _ => true
  | Ev.uiSetInput _ => true
  | Ev.uiSetLanguage _ => true
  | Ev.uiNewConversation => true

/-- The handler body run when an event is delivered; each case is the
translation of the corresponding callback in chat.js. -/
def stepCore (s : AppState) : Ev → AppState
  | Ev.listenerUser =>
      -- lines 106-115: `if (this.authHandled) return;` then the user branch
      if s.authHandled then s
      else onUserSignedIn { s with authHandled := true, clerkUser := true }
  | Ev.listenerNoUser =>
      -- lines 106-115: the guard also swallows sign-out notifications
      if s.authHandled then s else onUserSignedOut s
  | Ev.tokenOk tok =>
      -- lines 312-347: `new WebSocket(...)` and handler installation
      { s with pendingToken := false,
               socks := s.socks ++ [⟨SockPhase.connecting, false, tok, []⟩],
               cur := some s.socks.length,
               authSuccessSeen := false }
  | Ev.tokenNone =>
      -- line 310: `if (!token) { this.isConnecting = false; return; }`
      { s with pendingToken := false, isConnecting := false }
  | Ev.sockOpen i =>
      -- lines 315-320: flags, enable input, send the auth envelope with the
      -- closure-captured token over `this.socket`
      let sk := (s.socks[i]?).getD defaultSock
      let s1 := { s with isConnected := true, isConnecting := false,
                         inputEnabled := true,
                         socks := s.socks.set i { sk with phase := SockPhase.opened } }
      sendOnCur s1 (OutEnv.auth sk.token s1.savedLanguage)
  | Ev.sockMsg _ p =>
      -- lines 322-338; an abnormal handler exit leaves the state unchanged
      -- (the browser event loop swallows the exception)
      match onMessage s p with
      | some s1 => s1
      | none => s
  | Ev.sockClose i =>
      -- lines 340-345: reset flags, disable input, schedule the fixed-delay
      -- reconnect timer
      let sk := (s.socks[i]?).getD defaultSock
      { s with socks := s.socks.set i { sk with phase := SockPhase.closed },
               isConnected := false, isConnecting := false,
               inputEnabled := false,
               pendingTimers := s.pendingTimers ++ [3000],
               authSuccessSeen := false }
  | Ev.sockError i =>
      -- line 347: `this.socket.onerror = () => { this.isConnecting = false; }`
      let sk := (s.socks[i]?).getD defaultSock
      { s with socks := s.socks.set i { sk with errored := true },
               isConnecting := false }
  | Ev.timerFire =>
      -- line 344: `setTimeout(() => { if (this.clerkUser && !this.isConnected)
      -- this.connect(); }, 3000)`
      let s1 := { s with pendingTimers := s.pendingTimers.tail }
      if s1.clerkUser && !s1.isConnected then connectStart s1 else s1
  | Ev.fetchOk =>
      -- lines 243-246: store candidate data and re-render (DOM, out of scope)
      { s with pendingFetches := s.pendingFetches - 1 }
  | Ev.fetch403 =>
      -- lines 247-251: `await window.Clerk.signOut(); this.showSignIn();
      -- this.showAuthError(...)`
      showAuthErrorS (showSignInS
        { s with pendingFetches := s.pendingFetches - 1,
                 signOutCalls := s.signOutCalls + 1 })
  | Ev.fetchOther =>
      { s with pendingFetches := s.pendingFetches - 1 }
  | Ev.fetchTokenNone =>
      { s with pendingFetches := s.pendingFetches - 1 }
  | Ev.uiSend content => sendMessageS s content
  | Ev.uiSetInput v => { s with inputValue := v }
  | Ev.uiSetLanguage l =>
      -- lines 196-204: update the stored language, and if connected send the
      -- set_language envelope
      let s1 := { s with savedLanguage := l }
      if s1.cur.isSome && s1.isConnected then sendOnCur s1 (OutEnv.setLanguage l)
      else s1
  | Ev.uiNewConversation =>
      -- lines 381-387
      if s.cur.isSome && s.isConnected then
        sendOnCur { s with messageLog := [], quickActionsVisible := true }
          OutEnv.newConversation
      else s

/-- Deliver an event: run its handler when the event is deliverable,
otherwise nothing happens. -/
def step (s : AppState) (e : Ev) : AppState :=
  if validEv s e then stepCore s e else s

/-- The state right after the constructor (chat.js lines 50-58): everything
cleared, language defaulted. -/
def emptyState : AppState :=
  { socks := [], cur := none, clerkUser := false, authHandled := false,
    isConnected := false, isConnecting := false, pendingToken := false,
    savedLanguage := "en", pendingTimers := [], pendingFetches := 0,
    signOutCalls := 0, screen := Screen.signInScreen, authErrorShown := false,
    authSuccessSeen := false, quickActionsVisible := false,
    inputEnabled := false, messageLog := [], inputValue := "",
    typingActive := false }

/-- chat.js lines 117-123, the end of `initClerk`: if a Clerk user is
already present the app marks auth handled and runs `onUserSignedIn`,
otherwise it shows the sign-in screen. -/
def initState (userAtLoad : Bool) : AppState :=
  if userAtLoad then
    onUserSignedIn { emptyState with authHandled := true, clerkUser := true }
  else showSignInS emptyState

/-- States the client can actually be in: an initial state followed by any
sequence of delivered events. -/
inductive Reachable : AppState → Prop
  | init (u : Bool) : Reachable (initState u)
  | step (e : Ev) {s : AppState} : Reachable s → Reachable (step s e)

/-- A live socket is one whose close event can still fire. -/
def isLive (sk : Sock) : Bool :=
  decide (sk.phase ≠ SockPhase.closed)

/-- Number of live WebSocket instances. -/
def liveCount (s : AppState) : Nat :=
  s.socks.countP isLive

/-- 1 while `connect()` is suspended awaiting the token. -/
def tokenCount (s : AppState) : Nat :=
  if s.pendingToken then 1 else 0

/-- Every envelope ever sent, over all sockets, in creation order. -/
def allSent (s : AppState) : List OutEnv :=
  (s.socks.map Sock.sent).flatten

/-- The lifecycle invariant: at most one connection activity (a live socket,
a pending reconnect timer, or a suspended connect) exists at a time; the
flags are consistent with it; before the first sign-in nothing is running;
every reconnect timer carries the fixed 3000 ms delay. -/
def LifecycleInv (s : AppState) : Prop :=
  liveCount s + s.pendingTimers.length + tokenCount s ≤ 1
  ∧ (s.isConnecting = true → s.pendingToken = true ∨ 1 ≤ liveCount s)
  ∧ (s.pendingToken = true → s.isConnecting = true)
  ∧ (s.isConnecting = false ∨ s.isConnected = false)
  ∧ s.authHandled = s.clerkUser
  ∧ (s.authHandled = false →
      liveCount s = 0 ∧ s.pendingTimers = [] ∧ s.pendingToken = false
      ∧ s.isConnecting = false ∧ s.isConnected = false)
  ∧ (∀ d ∈ s.pendingTimers, d = 3000)

/-- Trace state: user present at load, `connect()` suspended at the token
await. -/
def sAwait : AppState := initState true

/-- Trace state: token delivered, WebSocket 0 created and connecting. -/
def sConn : AppState := step sAwait (Ev.tokenOk "tok")

/-- Trace state: socket 0 open, auth envelope sent, handshake unresolved
(the spec's `Authenticating` window). -/
def sOpen : AppState := step sConn (Ev.sockOpen 0)

/-- Trace state: `auth_success` received — the spec's `Ready`. -/
def sReady : AppState := step sOpen (Ev.sockMsg 0 (InPayload.wellformed InEnv.authSuccess))

/-- Trace state for C1: the backend answered the handshake with
`auth_failed{reason:"email_not_registered"}` (the identity-unverified
classification). -/
def c1AfterAuthFailed : AppState :=
  step sOpen (Ev.sockMsg 0 (InPayload.wellformed (InEnv.authFailed "email_not_registered")))

/-- Trace state for C1: the connection then closed. -/
def c1AfterClose : AppState := step c1AfterAuthFailed (Ev.sockClose 0)

/-- Trace state for C1: the reconnect timer scheduled by that close fired. -/
def c1AfterTimer : AppState := step c1AfterClose Ev.timerFire

/-- Replacing one element by another with the same predicate value keeps the
`countP` unchanged. -/
theorem countP_set_congr (p : Sock → Bool) :
    ∀ (l : List Sock) (i : Nat) (a : Sock),
      (∀ b, l[i]? = some b → p a = p b) →
      (l.set i a).countP p = l.countP p := by
  intro l
  induction l with
  | nil => intro i a _; rfl
  | cons hd tl ih =>
    intro i a hsame
    cases i with
    | zero =>
      have hb : p a = p hd := hsame hd (by simp)
      simp [List.set, List.countP_cons, hb]
    | succ n =>
      have hrec : (tl.set n a).countP p = tl.countP p :=
        ih n a (fun b hb => hsame b (by simpa using hb))
      simp [List.set, List.countP_cons, hrec]

/-- Replacing an element satisfying the predicate by one that does not
decrements `countP` by exactly one. -/
theorem countP_set_dec (p : Sock → Bool) :
    ∀ (l : List Sock) (i : Nat) (a b : Sock),
      l[i]? = some b → p b = true → p a = false →
      (l.set i a).countP p + 1 = l.countP p := by
  intro l
  induction l with
  | nil => intro i a b hb; simp at hb
  | cons hd tl ih =>
    intro i a b hb hpb hpa
    cases i with
    | zero =>
      simp only [List.getElem?_cons_zero, Option.some.injEq] at hb
      subst hb
      simp [List.set, List.countP_cons, hpa, hpb]
    | succ n =>
      have hrec := ih n a b (by simpa using hb) hpb hpa
      simp only [List.set, List.countP_cons]
      omega

/-- An element reachable by index and satisfying the predicate witnesses a
positive `countP`. -/
theorem countP_pos_of_getElem (p : Sock → Bool) :
    ∀ (l : List Sock) (i : Nat) (b : Sock),
      l[i]? = some b → p b = true → 1 ≤ l.countP p := by
  intro l
  induction l with
  | nil => intro i b hb; simp at hb
  | cons hd tl ih =>
    intro i b hb hpb
    cases i with
    | zero =>
      simp only [List.getElem?_cons_zero, Option.some.injEq] at hb
      subst hb
      simp [List.countP_cons, hpb]
    | succ n =>
      have hrec := ih n b (by simpa using hb) hpb
      simp only [List.countP_cons]
      omega

/-- A string all of whose characters are whitespace trims to the empty
string. -/
theorem jsTrim_eq_empty (s : String)
    (h : ∀ c ∈ s.data, jsIsWhitespace c = true) : jsTrim s = "" := by
  have h1 : s.data.dropWhile jsIsWhitespace = [] := List.dropWhile_eq_nil_iff.mpr h
  simp [jsTrim, h1]

/-- `findIndex` over a list none of whose keys match yields -1. -/
theorem jsFindIndex_eq_neg_one (c : String) :
    ∀ l : List Stage, (∀ st ∈ l, st.key ≠ c) → jsFindIndex c l = -1 := by
  intro l
  induction l with
  | nil => intro _; rfl
  | cons hd tl ih =>
    intro h
    have h0 : hd.key ≠ c := h hd (List.mem_cons_self hd tl)
    have h1 : jsFindIndex c tl = -1 := ih (fun st hst => h st (List.mem_cons_of_mem _ hst))
    simp [jsFindIndex, h0, h1]

/-- The lifecycle invariant only looks at the live-socket count, the timer
list, the token suspension and four flags; states agreeing there share it. -/
theorem inv_of_fields (s t : AppState)
    (hlc : liveCount t = liveCount s)
    (htm : t.pendingTimers = s.pendingTimers)
    (htk : t.pendingToken = s.pendingToken)
    (hcg : t.isConnecting = s.isConnecting)
    (hcd : t.isConnected = s.isConnected)
    (hah : t.authHandled = s.authHandled)
    (hcu : t.clerkUser = s.clerkUser)
    (h : LifecycleInv s) : LifecycleInv t := by
  unfold LifecycleInv tokenCount at *
  rw [hlc, htm, htk, hcg, hcd, hah, hcu]
  exact h

/-- Sending an envelope over the current socket does not change the number
of live sockets. -/
theorem liveCount_sendOnCur (s : AppState) (env : OutEnv) :
    liveCount (sendOnCur s env) = liveCount s := by
  unfold sendOnCur
  cases s.cur with
  | none => rfl
  | some j =>
    unfold liveCount
    simp only []
    apply countP_set_congr
    intro b hb
    rw [hb]
    simp only [Option.getD_some]
    rfl

/-- The WebSocket `close()` call does not change whether a socket is live
(its close event is still due). -/
theorem isLive_closeSock (sk : Sock) : isLive (closeSock sk) = isLive sk := by
  unfold closeSock
  split
  · rfl
  · next h => simp [isLive, h]

/-- Sending an envelope preserves the lifecycle invariant. -/
theorem inv_sendOnCur (s : AppState) (env : OutEnv) (h : LifecycleInv s) :
    LifecycleInv (sendOnCur s env) := by
  refine inv_of_fields s (sendOnCur s env) (liveCount_sendOnCur s env) ?_ ?_ ?_ ?_ ?_ ?_ h <;>
    · unfold sendOnCur
      cases s.cur <;> rfl


/-- Delivering any valid event preserves the lifecycle invariant. -/
theorem inv_stepCore (s : AppState) (e : Ev) (hv : validEv s e = true)
    (h : LifecycleInv s) : LifecycleInv (stepCore s e) := by
  obtain ⟨h1, h2, h3, h4, h5, h6, h7⟩ := h
  cases e with
  | listenerUser =>
    simp only [stepCore]
    by_cases hab : s.authHandled = true
    · rw [if_pos hab]
      exact ⟨h1, h2, h3, h4, h5, h6, h7⟩
    · have hab2 : s.authHandled = false := by simpa using hab
      obtain ⟨hl, htm, htk, hcg, hcd⟩ := h6 hab2
      rw [if_neg hab]
      unfold onUserSignedIn connectStart
      simp only [hcd, hcg, Bool.not_false, Bool.and_self, if_true, Bool.or_self,
        Bool.false_eq_true, if_false]
      refine ⟨?_, fun _ => Or.inl rfl, fun _ => rfl, Or.inr rfl, rfl, by simp, ?_⟩
      · show liveCount s + s.pendingTimers.length + 1 ≤ 1
        rw [htm]
        simp [hl]
      · show ∀ d ∈ s.pendingTimers, d = 3000
        exact h7
  | listenerNoUser =>
    simp only [stepCore]
    by_cases hab : s.authHandled = true
    · rw [if_pos hab]
      exact ⟨h1, h2, h3, h4, h5, h6, h7⟩
    · have hab2 : s.authHandled = false := by simpa using hab
      obtain ⟨hl, htm, htk, hcg, hcd⟩ := h6 hab2
      rw [if_neg hab]
      unfold onUserSignedOut showSignInS
      cases hcur : s.cur with
      | none =>
        refine ⟨h1, by simp, ?_, Or.inl rfl, rfl, fun _ => ⟨hl, htm, htk, rfl, rfl⟩, h7⟩
        intro hq
        have hq2 : s.pendingToken = true := hq
        rw [htk] at hq2
        exact Bool.noConfusion hq2
      | some i =>
        have hset : List.countP isLive
            (s.socks.set i (closeSock ((s.socks[i]?).getD defaultSock))) =
            List.countP isLive s.socks := by
          apply countP_set_congr
          intro b hb
          rw [hb]
          simp only [Option.getD_some]
          exact isLive_closeSock b
        refine ⟨?_, by simp, ?_, Or.inl rfl, rfl, ?_, h7⟩
        · show List.countP isLive
              (s.socks.set i (closeSock ((s.socks[i]?).getD defaultSock)))
              + s.pendingTimers.length + tokenCount s ≤ 1
          rw [hset]
          exact h1
        · intro hq
          have hq2 : s.pendingToken = true := hq
          rw [htk] at hq2
          exact Bool.noConfusion hq2
        · intro _
          exact ⟨hset.trans hl, htm, htk, rfl, rfl⟩
  | tokenOk tok =>
    have hpt : s.pendingToken = true := by simpa [validEv] using hv
    have hcg : s.isConnecting = true := h3 hpt
    have hcd : s.isConnected = false := by
      rcases h4 with h4 | h4
      · rw [h4] at hcg; exact Bool.noConfusion hcg
      · exact h4
    have h1' : liveCount s + s.pendingTimers.length + 1 ≤ 1 := by
      simpa [tokenCount, hpt] using h1
    simp only [liveCount] at h1'
    have happ : List.countP isLive (s.socks ++ [⟨SockPhase.connecting, false, tok, []⟩]) =
        List.countP isLive s.socks + 1 := by
      rw [List.countP_append]
      simp [List.countP_cons, isLive]
    simp only [stepCore]
    refine ⟨?_, ?_, fun _ => hcg, Or.inr hcd, h5, ?_, h7⟩
    · show List.countP isLive (s.socks ++ [⟨SockPhase.connecting, false, tok, []⟩])
          + s.pendingTimers.length + 0 ≤ 1
      rw [happ]
      omega
    · intro _
      refine Or.inr ?_
      show 1 ≤ List.countP isLive (s.socks ++ [⟨SockPhase.connecting, false, tok, []⟩])
      rw [happ]
      omega
    · intro hab
      have hq := (h6 hab).2.2.1
      rw [hpt] at hq
      exact Bool.noConfusion hq
  | tokenNone =>
    have hpt : s.pendingToken = true := by simpa [validEv] using hv
    have h1' : liveCount s + s.pendingTimers.length + 1 ≤ 1 := by
      simpa [tokenCount, hpt] using h1
    simp only [stepCore]
    refine ⟨?_, ?_, ?_, Or.inl rfl, h5, ?_, h7⟩
    · show liveCount s + s.pendingTimers.length + 0 ≤ 1
      omega
    · intro hq
      exact Bool.noConfusion hq
    · intro hq
      exact Bool.noConfusion hq
    · intro hab
      obtain ⟨hl, htm, htk, hcg, hcd⟩ := h6 hab
      exact ⟨hl, htm, rfl, rfl, hcd⟩
  | sockOpen i =>
    simp only [validEv] at hv
    cases hsk : s.socks[i]? with
    | none =>
      rw [hsk] at hv
      exact Bool.noConfusion hv
    | some sk =>
      rw [hsk] at hv
      simp only [Bool.and_eq_true, decide_eq_true_eq, Bool.not_eq_true'] at hv
      obtain ⟨hph, herr⟩ := hv
      have hlsk : isLive sk = true := by simp [isLive, hph]
      have hpos : 1 ≤ List.countP isLive s.socks :=
        countP_pos_of_getElem isLive s.socks i sk hsk hlsk
      have hset : List.countP isLive (s.socks.set i { sk with phase := SockPhase.opened }) =
          List.countP isLive s.socks := by
        apply countP_set_congr
        intro b hb
        rw [hsk] at hb
        simp only [Option.some.injEq] at hb
        subst hb
        rw [hlsk]
        rfl
      have hlc : liveCount s = List.countP isLive s.socks := rfl
      have htk : s.pendingToken = false := by
        cases hq : s.pendingToken
        · rfl
        · exfalso
          have hc : tokenCount s = 1 := by simp [tokenCount, hq]
          omega
      simp only [stepCore, hsk, Option.getD_some]
      apply inv_sendOnCur
      refine ⟨?_, by simp, ?_, Or.inl rfl, h5, ?_, h7⟩
      · show List.countP isLive (s.socks.set i { sk with phase := SockPhase.opened })
            + s.pendingTimers.length + tokenCount s ≤ 1
        rw [hset]
        exact h1
      · intro hq
        have hq2 : s.pendingToken = true := hq
        rw [htk] at hq2
        exact Bool.noConfusion hq2
      · intro hab
        exfalso
        have hq := (h6 hab).1
        rw [hlc] at hq
        omega
  | sockMsg i p =>
    simp only [stepCore]
    cases p with
    | malformed => exact ⟨h1, h2, h3, h4, h5, h6, h7⟩
    | wellformed env =>
      cases env with
      | authSuccess => exact ⟨h1, h2, h3, h4, h5, h6, h7⟩
      | authFailed r =>
        simp only [onMessage]
        split
        · exact ⟨h1, h2, h3, h4, h5, h6, h7⟩
        · exact ⟨h1, h2, h3, h4, h5, h6, h7⟩
      | message c => exact ⟨h1, h2, h3, h4, h5, h6, h7⟩
      | typing st =>
        simp only [onMessage]
        split
        · exact ⟨h1, h2, h3, h4, h5, h6, h7⟩
        · exact ⟨h1, h2, h3, h4, h5, h6, h7⟩
      | other => exact ⟨h1, h2, h3, h4, h5, h6, h7⟩
  | sockClose i =>
    simp only [validEv] at hv
    cases hsk : s.socks[i]? with
    | none =>
      rw [hsk] at hv
      exact Bool.noConfusion hv
    | some sk =>
      rw [hsk] at hv
      simp only [decide_eq_true_eq] at hv
      have hlsk : isLive sk = true := by simp [isLive, hv]
      have hpos : 1 ≤ List.countP isLive s.socks :=
        countP_pos_of_getElem isLive s.socks i sk hsk hlsk
      have hdec : List.countP isLive (s.socks.set i { sk with phase := SockPhase.closed }) + 1 =
          List.countP isLive s.socks :=
        countP_set_dec isLive s.socks i _ sk hsk hlsk rfl
      have hlc : liveCount s = List.countP isLive s.socks := rfl
      have htk : s.pendingToken = false := by
        cases hq : s.pendingToken
        · rfl
        · exfalso
          have hc : tokenCount s = 1 := by simp [tokenCount, hq]
          omega
      have hc0 : tokenCount s = 0 := by simp [tokenCount, htk]
      simp only [stepCore, hsk, Option.getD_some]
      refine ⟨?_, by simp, ?_, Or.inl rfl, h5, ?_, ?_⟩
      · show List.countP isLive (s.socks.set i { sk with phase := SockPhase.closed })
            + (s.pendingTimers ++ [3000]).length + tokenCount s ≤ 1
        rw [List.length_append]
        simp only [List.length_singleton]
        omega
      · intro hq
        have hq2 : s.pendingToken = true := hq
        rw [htk] at hq2
        exact Bool.noConfusion hq2
      · intro hab
        exfalso
        have hq := (h6 hab).1
        rw [hlc] at hq
        omega
      · show ∀ d ∈ s.pendingTimers ++ [3000], d = 3000
        intro d hd
        rcases List.mem_append.mp hd with hd | hd
        · exact h7 d hd
        · simpa using hd
  | sockError i =>
    simp only [validEv] at hv
    cases hsk : s.socks[i]? with
    | none =>
      rw [hsk] at hv
      exact Bool.noConfusion hv
    | some sk =>
      rw [hsk] at hv
      simp only [Bool.and_eq_true, decide_eq_true_eq, Bool.not_eq_true'] at hv
      obtain ⟨hph, herr⟩ := hv
      have hlsk : isLive sk = true := by simp [isLive, hph]
      have hpos : 1 ≤ List.countP isLive s.socks :=
        countP_pos_of_getElem isLive s.socks i sk hsk hlsk
      have hset : List.countP isLive (s.socks.set i { sk with errored := true }) =
          List.countP isLive s.socks := by
        apply countP_set_congr
        intro b hb
        rw [hsk] at hb
        simp only [Option.some.injEq] at hb
        subst hb
        rfl
      have hlc : liveCount s = List.countP isLive s.socks := rfl
      have htk : s.pendingToken = false := by
        cases hq : s.pendingToken
        · rfl
        · exfalso
          have hc : tokenCount s = 1 := by simp [tokenCount, hq]
          omega
      simp only [stepCore, hsk, Option.getD_some]
      refine ⟨?_, by simp, ?_, Or.inl rfl, h5, ?_, h7⟩
      · show List.countP isLive (s.socks.set i { sk with errored := true })
            + s.pendingTimers.length + tokenCount s ≤ 1
        rw [hset]
        exact h1
      · intro hq
        have hq2 : s.pendingToken = true := hq
        rw [htk] at hq2
        exact Bool.noConfusion hq2
      · intro hab
        exfalso
        have hq := (h6 hab).1
        rw [hlc] at hq
        omega
  | timerFire =>
    have hne : s.pendingTimers ≠ [] := by
      intro hq
      simp [validEv, hq] at hv
    have hlenpos : 1 ≤ s.pendingTimers.length := by
      cases hq : s.pendingTimers with
      | nil => exact absurd hq hne
      | cons a l => simp [hq]
    have hlc : liveCount s = List.countP isLive s.socks := rfl
    have htk : s.pendingToken = false := by
      cases hq : s.pendingToken
      · rfl
      · exfalso
        have hc : tokenCount s = 1 := by simp [tokenCount, hq]
        omega
    have hc0 : tokenCount s = 0 := by simp [tokenCount, htk]
    have hl0 : liveCount s = 0 := by omega
    have hcg : s.isConnecting = false := by
      cases hq : s.isConnecting
      · rfl
      · rcases h2 hq with hx | hx
        · rw [htk] at hx
          exact Bool.noConfusion hx
        · exfalso
          omega
    simp only [stepCore]
    split
    · next hguard =>
      simp only [Bool.and_eq_true, Bool.not_eq_true'] at hguard
      obtain ⟨hcu, hcd⟩ := hguard
      unfold connectStart
      rw [if_neg (by
        show ¬((s.isConnecting || s.isConnected) = true)
        rw [hcg, hcd]
        simp)]
      refine ⟨?_, fun _ => Or.inl rfl, fun _ => rfl, Or.inr hcd, h5, ?_, ?_⟩
      · show liveCount s + s.pendingTimers.tail.length + 1 ≤ 1
        rw [List.length_tail]
        omega
      · intro hab
        have hab2 : s.authHandled = false := hab
        rw [hab2] at h5
        rw [hcu] at h5
        exact Bool.noConfusion h5
      · show ∀ d ∈ s.pendingTimers.tail, d = 3000
        intro d hd
        exact h7 d (List.mem_of_mem_tail hd)
    · next hguard =>
      refine ⟨?_, ?_, ?_, h4, h5, ?_, ?_⟩
      · show liveCount s + s.pendingTimers.tail.length + tokenCount s ≤ 1
        rw [List.length_tail]
        omega
      · intro hq
        have hq2 : s.isConnecting = true := hq
        rw [hcg] at hq2
        exact Bool.noConfusion hq2
      · intro hq
        have hq2 : s.pendingToken = true := hq
        rw [htk] at hq2
        exact Bool.noConfusion hq2
      · intro hab
        exact absurd (h6 hab).2.1 hne
      · show ∀ d ∈ s.pendingTimers.tail, d = 3000
        intro d hd
        exact h7 d (List.mem_of_mem_tail hd)
  | fetchOk =>
    exact ⟨h1, h2, h3, h4, h5, h6, h7⟩
  | fetch403 =>
    exact ⟨h1, h2, h3, h4, h5, h6, h7⟩
  | fetchOther =>
    exact ⟨h1, h2, h3, h4, h5, h6, h7⟩
  | fetchTokenNone =>
    exact ⟨h1, h2, h3, h4, h5, h6, h7⟩
  | uiSend content =>
    simp only [stepCore, sendMessageS]
    split
    · exact ⟨h1, h2, h3, h4, h5, h6, h7⟩
    · exact inv_of_fields _ _ rfl rfl rfl rfl rfl rfl rfl
        (inv_sendOnCur _ _
          (inv_of_fields s _ rfl rfl rfl rfl rfl rfl rfl ⟨h1, h2, h3, h4, h5, h6, h7⟩))
  | uiSetInput v =>
    exact ⟨h1, h2, h3, h4, h5, h6, h7⟩
  | uiSetLanguage l =>
    simp only [stepCore]
    split
    · exact inv_sendOnCur _ _
        (inv_of_fields s _ rfl rfl rfl rfl rfl rfl rfl ⟨h1, h2, h3, h4, h5, h6, h7⟩)
    · exact inv_of_fields s _ rfl rfl rfl rfl rfl rfl rfl ⟨h1, h2, h3, h4, h5, h6, h7⟩
  | uiNewConversation =>
    simp only [stepCore]
    split
    · exact inv_sendOnCur _ _
        (inv_of_fields s _ rfl rfl rfl rfl rfl rfl rfl ⟨h1, h2, h3, h4, h5, h6, h7⟩)
    · exact ⟨h1, h2, h3, h4, h5, h6, h7⟩

/-- Both initial states satisfy the lifecycle invariant. -/
theorem inv_initState (u : Bool) : LifecycleInv (initState u) := by
  cases u
  · refine ⟨?_, ?_, ?_, Or.inl rfl, rfl, fun _ => ⟨rfl, rfl, rfl, rfl, rfl⟩, ?_⟩
    · show 0 + 0 + 0 ≤ 1
      decide
    · intro hq
      exact Bool.noConfusion hq
    · intro hq
      exact Bool.noConfusion hq
    · intro d hd
      exact absurd hd (List.not_mem_nil d)
  · refine ⟨?_, fun _ => Or.inl rfl, fun _ => rfl, Or.inr rfl, rfl, ?_, ?_⟩
    · show 0 + 0 + 1 ≤ 1
      decide
    · intro hq
      exact Bool.noConfusion hq
    · intro d hd
      exact absurd hd (List.not_mem_nil d)

/-- One delivered event (valid or not) preserves the lifecycle invariant. -/
theorem inv_step (s : AppState) (e : Ev) (h : LifecycleInv s) :
    LifecycleInv (step s e) := by
  unfold step
  split
  · next hv => exact inv_stepCore s e hv h
  · exact h

/-- Every reachable state satisfies the lifecycle invariant. -/
theorem reachable_inv (s : AppState) (h : Reachable s) : LifecycleInv s := by
  induction h with
  | init u => exact inv_initState u
  | step e _ ih => exact inv_step _ e ih

/-- Claim C1 (code bug): after an inbound `auth_failed` envelope with reason
`email_not_registered`, sign-out is invoked exactly once and the
non-retryable error banner is shown on the sign-in screen — but because the
Clerk listener is suppressed by the `authHandled` guard, `clerkUser` is
never cleared, so when the connection subsequently closes a 3000 ms
reconnect timer is scheduled and its callback re-enters `connect()`: the
reconnect path IS taken after this failure, contradicting the claim. -/
theorem c1_identity_unverified_reconnects :
    Reachable c1AfterTimer
    ∧ c1AfterAuthFailed.signOutCalls = 1
    ∧ c1AfterAuthFailed.authErrorShown = true
    ∧ c1AfterAuthFailed.screen = Screen.signInScreen
    ∧ c1AfterClose.pendingTimers = [3000]
    ∧ c1AfterClose.clerkUser = true
    ∧ c1AfterTimer.isConnecting = true
    ∧ c1AfterTimer.pendingToken = true := by
  refine ⟨?_, by decide, by decide, by decide, by decide, by decide, by decide, by decide⟩
  exact Reachable.step Ev.timerFire (Reachable.step (Ev.sockClose 0)
    (Reachable.step (Ev.sockMsg 0 (InPayload.wellformed (InEnv.authFailed "email_not_registered")))
      (Reachable.step (Ev.sockOpen 0) (Reachable.step (Ev.tokenOk "tok") (Reachable.init true)))))

/-- Claim C2 (code bug): in the reachable signed-in state with an open
socket, processing a sign-out event (the Clerk listener firing with no
user) is a complete no-op — the `authHandled` guard returns before
`onUserSignedOut` runs, so the handle is not closed, the user is not
cleared and the session is not reset, contradicting the claim. -/
theorem c2_signout_after_signin_ignored :
    Reachable sOpen
    ∧ sOpen.clerkUser = true
    ∧ sOpen.authHandled = true
    ∧ sOpen.cur = some 0
    ∧ sOpen.socks.map Sock.phase = [SockPhase.opened]
    ∧ step sOpen Ev.listenerNoUser = sOpen := by
  refine ⟨?_, by decide, by decide, by decide, by decide, by decide⟩
  exact Reachable.step (Ev.sockOpen 0) (Reachable.step (Ev.tokenOk "tok") (Reachable.init true))

/-- Claim C3: in every reachable state at most one reconnect timer is
pending; delivering any close event keeps it that way; and a close event
delivered in the Ready state leaves exactly one pending timer with the
fixed 3000 ms delay. -/
theorem c3_at_most_one_reconnect_timer (s : AppState) (hr : Reachable s) :
    s.pendingTimers.length ≤ 1
    ∧ (∀ i : Nat, (step s (Ev.sockClose i)).pendingTimers.length ≤ 1)
    ∧ (authStateOf s = AuthState.Ready →
        ∀ i : Nat, validEv s (Ev.sockClose i) = true →
          (step s (Ev.sockClose i)).pendingTimers = [3000]) := by
  obtain ⟨h1, h2, h3, h4, h5, h6, h7⟩ := reachable_inv s hr
  have hlen0 : ∀ i : Nat, validEv s (Ev.sockClose i) = true → s.pendingTimers = [] := by
    intro i hvc
    simp only [validEv] at hvc
    cases hsk : s.socks[i]? with
    | none =>
      rw [hsk] at hvc
      exact Bool.noConfusion hvc
    | some sk =>
      rw [hsk] at hvc
      simp only [decide_eq_true_eq] at hvc
      have hlsk : isLive sk = true := by simp [isLive, hvc]
      have hpos : 1 ≤ List.countP isLive s.socks :=
        countP_pos_of_getElem isLive s.socks i sk hsk hlsk
      have hlc : liveCount s = List.countP isLive s.socks := rfl
      have hl : s.pendingTimers.length = 0 := by omega
      exact List.length_eq_zero.mp hl
  refine ⟨by omega, ?_, ?_⟩
  · intro i
    unfold step
    split
    · next hvc =>
      have htm := hlen0 i hvc
      show (s.pendingTimers ++ [3000]).length ≤ 1
      rw [htm]
      decide
    · omega
  · intro _ i hvc
    have htm := hlen0 i hvc
    unfold step
    rw [if_pos hvc]
    show s.pendingTimers ++ [3000] = [3000]
    rw [htm]
    rfl

/-- Witness for C3 at the concrete Ready state of the trace. -/
theorem c3_at_most_one_reconnect_timer_witness :
    sReady.pendingTimers.length ≤ 1
    ∧ (step sReady (Ev.sockClose 0)).pendingTimers = [3000] := by
  have hr : Reachable sReady :=
    Reachable.step (Ev.sockMsg 0 (InPayload.wellformed InEnv.authSuccess))
      (Reachable.step (Ev.sockOpen 0) (Reachable.step (Ev.tokenOk "tok") (Reachable.init true)))
  exact ⟨(c3_at_most_one_reconnect_timer sReady hr).1,
    (c3_at_most_one_reconnect_timer sReady hr).2.2 (by decide) 0 (by decide)⟩

/-- Claim C4, counterexample: in the reachable Authenticating state (socket
open, `auth_success` not yet received — so not Ready) a send DOES put an
envelope on the wire, because the code gates `sendMessage` on `isConnected`,
which `onopen` sets before the handshake resolves. -/
theorem c4_send_while_authenticating_counterexample :
    authStateOf sOpen = AuthState.Authenticating
    ∧ authStateOf sOpen ≠ AuthState.Ready
    ∧ allSent (step sOpen (Ev.uiSend (some "hello"))) ≠ allSent sOpen := by
  refine ⟨by decide, by decide, by decide⟩

/-- Claim C4, amended: whenever the socket is not open (`isConnected =
false`, i.e. the Unauthenticated and Connecting states), `sendMessage` is a
complete no-op — no outbound envelope, no state change, no exception.  In
the Authenticating window sends are transmitted (see the counterexample). -/
theorem c4_send_not_connected_noop (s : AppState) (m : Option String)
    (h : s.isConnected = false) :
    step s (Ev.uiSend m) = s := by
  show sendMessageS s m = s
  simp [sendMessageS, h]

/-- Witness for the amended C4 at a concrete disconnected state. -/
theorem c4_send_not_connected_noop_witness :
    step (initState false) (Ev.uiSend (some "hello")) = initState false :=
  c4_send_not_connected_noop (initState false) (some "hello") rfl

/-- Claim C5 (code bug): an undecodable inbound payload makes the onmessage
handler terminate abnormally (`JSON.parse` at chat.js line 323 throws, with
no try/catch) instead of being classified, logged and dropped.  The state
is untouched and the connection stays open only because the browser event
loop swallows the exception outside the handler. -/
theorem c5_malformed_payload_handler_throws :
    (∀ s : AppState, onMessage s InPayload.malformed = none)
    ∧ step sOpen (Ev.sockMsg 0 InPayload.malformed) = sOpen
    ∧ sOpen.socks.map Sock.phase = [SockPhase.opened] :=
  ⟨fun _ => rfl, by decide, by decide⟩

/-- Claim C6: in every reachable state that is Connecting, Authenticating
or Ready, a `connect()` call is a no-op (the guard at chat.js line 306
returns before any WebSocket is created), and at most one live connection
handle exists. -/
theorem c6_connect_idempotent (s : AppState) (hr : Reachable s)
    (hstate : authStateOf s = AuthState.Connecting
      ∨ authStateOf s = AuthState.Authenticating
      ∨ authStateOf s = AuthState.Ready) :
    connectStart s = s ∧ liveCount s ≤ 1 := by
  obtain ⟨h1, -, -, -, -, -, -⟩ := reachable_inv s hr
  have hflag : (s.isConnecting || s.isConnected) = true := by
    by_cases hcg : s.isConnecting = true
    · simp [hcg]
    · by_cases hcd : s.isConnected = true
      · simp [hcd]
      · exfalso
        have hcg2 : s.isConnecting = false := by simpa using hcg
        have hcd2 : s.isConnected = false := by simpa using hcd
        rcases hstate with h | h | h <;> simp [authStateOf, hcg2, hcd2] at h
  constructor
  · unfold connectStart
    rw [if_pos hflag]
  · omega

/-- Witness for C6 at the concrete Authenticating state of the trace. -/
theorem c6_connect_idempotent_witness :
    connectStart sOpen = sOpen ∧ liveCount sOpen ≤ 1 :=
  c6_connect_idempotent sOpen
    (Reachable.step (Ev.sockOpen 0) (Reachable.step (Ev.tokenOk "tok") (Reachable.init true)))
    (Or.inr (Or.inl (by decide)))

/-- Claim C7: when the session is Unauthenticated and a `connect()` call
gets a null token from the provider, no connection handle is opened and the
session remains Unauthenticated; the call returns normally. -/
theorem c7_null_token_no_handle (s : AppState)
    (h : authStateOf s = AuthState.Unauthenticated) :
    (step (connectStart s) Ev.tokenNone).socks = s.socks
    ∧ authStateOf (step (connectStart s) Ev.tokenNone) = AuthState.Unauthenticated := by
  have hcg : s.isConnecting = false := by
    by_cases hq : s.isConnecting = true
    · exfalso
      simp [authStateOf, hq] at h
    · simpa using hq
  have hcd : s.isConnected = false := by
    by_cases hq : s.isConnected = true
    · exfalso
      by_cases hs2 : s.authSuccessSeen = true <;> simp [authStateOf, hcg, hq, hs2] at h
    · simpa using hq
  have hred : step (connectStart s) Ev.tokenNone =
      { s with isConnecting := false, pendingToken := false } := by
    unfold connectStart
    rw [if_neg (by rw [hcg, hcd]; simp)]
    rfl
  rw [hred]
  exact ⟨rfl, by simp [authStateOf, hcd]⟩

/-- Witness for C7 at the concrete signed-out initial state. -/
theorem c7_null_token_no_handle_witness :
    (step (connectStart (initState false)) Ev.tokenNone).socks = (initState false).socks
    ∧ authStateOf (step (connectStart (initState false)) Ev.tokenNone) =
      AuthState.Unauthenticated :=
  c7_null_token_no_handle (initState false) (by decide)

/-- Claim C8: the stage projection is an exact-match lookup over the fixed
8-entry vocabulary.  For "Candidate Interview" the index is 1, marking
index 0 completed, index 1 active and indices 2-7 neither; any string
outside the vocabulary yields index -1, so no row is completed or active
and no error is possible (the projection is total). -/
theorem c8_stage_projection (st : String)
    (hst : st ∉ APPLICATION_STAGES.map Stage.key) :
    stageIndexOf (some "Candidate Interview") = 1
    ∧ rowCompleted 0 (stageIndexOf (some "Candidate Interview")) = true
    ∧ rowActive 1 (stageIndexOf (some "Candidate Interview")) = true
    ∧ rowCompleted 1 (stageIndexOf (some "Candidate Interview")) = false
    ∧ rowActive 0 (stageIndexOf (some "Candidate Interview")) = false
    ∧ (∀ i : Nat, 2 ≤ i → i ≤ 7 →
        rowCompleted i (stageIndexOf (some "Candidate Interview")) = false
        ∧ rowActive i (stageIndexOf (some "Candidate Interview")) = false)
    ∧ stageIndexOf (some st) = -1
    ∧ (∀ i : Nat, rowCompleted i (stageIndexOf (some st)) = false
        ∧ rowActive i (stageIndexOf (some st)) = false) := by
  have hidx : stageIndexOf (some "Candidate Interview") = 1 := by decide
  have hnone : stageIndexOf (some st) = -1 := by
    have hs : ∀ stage ∈ APPLICATION_STAGES, stage.key ≠ st := by
      intro stage hmem heq
      exact hst (List.mem_map.mpr ⟨stage, hmem, heq⟩)
    show (if st = "" then -1 else jsFindIndex st APPLICATION_STAGES) = -1
    by_cases he : st = ""
    · rw [if_pos he]
    · rw [if_neg he]
      exact jsFindIndex_eq_neg_one st APPLICATION_STAGES hs
  refine ⟨hidx, by decide, by decide, by decide, by decide, ?_, hnone, ?_⟩
  · intro i h2 h7b
    rw [hidx]
    constructor
    · simp only [rowCompleted, decide_eq_false_iff_not]
      omega
    · simp only [rowActive, decide_eq_false_iff_not]
      omega
  · intro i
    rw [hnone]
    constructor
    · simp only [rowCompleted, decide_eq_false_iff_not]
      omega
    · simp only [rowActive, decide_eq_false_iff_not]
      omega

/-- Witness for C8 at the concrete unknown stage key "Unknown Stage". -/
theorem c8_stage_projection_witness :
    stageIndexOf (some "Candidate Interview") = 1
    ∧ stageIndexOf (some "Unknown Stage") = -1 :=
  ⟨(c8_stage_projection "Unknown Stage" (by decide)).1,
   (c8_stage_projection "Unknown Stage" (by decide)).2.2.2.2.2.2.1⟩

/-- Claim C9: in every reachable state the flags `isConnecting` and
`isConnected` are never both true. -/
theorem c9_flags_mutually_exclusive (s : AppState) (hr : Reachable s) :
    ¬(s.isConnecting = true ∧ s.isConnected = true) := by
  obtain ⟨-, -, -, h4, -, -, -⟩ := reachable_inv s hr
  rintro ⟨ha, hb⟩
  rcases h4 with h4 | h4
  · rw [ha] at h4
    exact Bool.noConfusion h4
  · rw [hb] at h4
    exact Bool.noConfusion h4

/-- Witness for C9 at the concrete signed-in initial state. -/
theorem c9_flags_mutually_exclusive_witness :
    ¬((initState true).isConnecting = true ∧ (initState true).isConnected = true) :=
  c9_flags_mutually_exclusive (initState true) (Reachable.init true)

/-- Claim C10: submitting the chat form with no explicit content while the
input field holds only whitespace is a complete no-op in every state: the
trimmed message is empty, so no envelope is sent and the log, the input
field and the quick-actions visibility are unchanged. -/
theorem c10_whitespace_send_noop (s : AppState)
    (h : ∀ c ∈ s.inputValue.data, jsIsWhitespace c = true) :
    step s (Ev.uiSend none) = s := by
  have htr : jsTrim s.inputValue = "" := jsTrim_eq_empty s.inputValue h
  show sendMessageS s none = s
  simp [sendMessageS, htr]

/-- Witness for C10 at the concrete connected state with a whitespace-only
input field. -/
theorem c10_whitespace_send_noop_witness :
    step { sOpen with inputValue := "   " } (Ev.uiSend none)
      = { sOpen with inputValue := "   " } :=
  c10_whitespace_send_noop { sOpen with inputValue := "   " } (by decide)
